import Mathlib

/-!
Verification development for the rancher-ai-mcp resource relationship resolver.

The definitions below are a shallow embedding of the Go sources under
internal/tools (tools.go, provisioning.go, workloads.go, resources.go).
Pure decision logic is translated directly; the Kubernetes API and transport
are represented by explicit environments (records of fetch functions), and
the traversals additionally record the fetch requests they issue so that
fetch-counting properties can be stated.  Token, URL and cluster routing,
which the sources merely pass through to the transport collaborator, are
elided.
-/

deriving instance DecidableEq for Except

namespace RancherMcp

/-- Group, version, resource coordinates of a kind (schema.GroupVersionResource). -/
structure GVR where
  group : String
  version : String
  resource : String
deriving DecidableEq

/-- An owner reference: the kind and name fields read by the traversals. -/
structure OwnerReference where
  kind : String
  name : String
deriving DecidableEq

/-- A fetched Kubernetes object, restricted to the fields the resolver reads:
name, namespace, owner references and (for pods) container names. -/
structure K8sObject where
  name : String
  ns : String
  ownerRefs : List OwnerReference
  containers : List String
deriving DecidableEq

/-- Error taxonomy of the backing API as distinguished by the sources
(apierrors.IsNotFound is the only predicate the code branches on). -/
inductive K8sError where
  | notFound
  | unauthorized
  | forbidden
  | unavailable
  | badRequest
deriving DecidableEq

/-! ## Cluster type classification (provisioning.go, getClusterType) -/

/-- ClusterType constants from provisioning.go. -/
inductive ClusterType where
  | imported
  | custom
  | nodedriver
  | hosted
deriving DecidableEq

/-- An untyped field value as read by unstructured.NestedString / NestedBool:
either a string, a bool, or a value of some other shape. -/
inductive FieldVal where
  | str (s : String)
  | boolVal (b : Bool)
  | otherVal
deriving DecidableEq

/-- The fields of the management cluster object that getClusterType reads:
status.provider, status.driver, and spec.<block>.imported for the hosted
config blocks (keyed by block name). -/
structure MgmtCluster where
  statusProvider : Option FieldVal
  statusDriver : Option FieldVal
  specHosted : List (String × FieldVal)
deriving DecidableEq

/-- unstructured.NestedString: returns (value, found) and errors when the
field is present with a non-string shape. -/
def nestedString : Option FieldVal → Except String (String × Bool)
  | none => .ok ("", false)
  | some (.str s) => .ok (s, true)
  | some _ => .error "value is not a string"

/-- unstructured.NestedBool: returns (value, found) and errors when the
field is present with a non-bool shape. -/
def nestedBool : Option FieldVal → Except String (Bool × Bool)
  | none => .ok (false, false)
  | some (.boolVal b) => .ok (b, true)
  | some _ => .error "value is not a bool"

/-- The hosted provider config block names checked by getClusterType. -/
def importedHostedKeys : List String := ["aksConfig", "eksConfig", "gkeConfig", "aliConfig"]

/-- The loop over hosted config blocks in getClusterType: the first block
whose imported field is found sets (isHosted, isImportedHosted) and breaks;
a malformed imported field aborts with the error. -/
def checkHostedBlocks (mc : MgmtCluster) : List String → Except String (Bool × Bool)
  | [] => .ok (false, false)
  | h :: rest =>
    match nestedBool (mc.specHosted.lookup h) with
    | .error e => .error e
    | .ok (imported, true) => .ok (true, imported)
    | .ok (_, false) => checkHostedBlocks mc rest

/-- getClusterType from provisioning.go: classify a management cluster given
the machine pool count of the corresponding provisioning cluster. -/
def getClusterType (poolSize : Nat) (mc : MgmtCluster) : Except String ClusterType :=
  match nestedString mc.statusProvider with
  | .error _ => .error "failed to get management cluster provider info"
  | .ok (provider, providerFound) =>
    match nestedString mc.statusDriver with
    | .error _ => .error "failed to get management cluster driver info"
    | .ok (driver, driverFound) =>
      if !providerFound && !driverFound then
        .error "failed to get management cluster driver info: no provider info"
      else
        match checkHostedBlocks mc importedHostedKeys with
        | .error _ => .error "failed to get management cluster hosted imported info"
        | .ok (isHosted, isImportedHosted) =>
          if isHosted then
            if isImportedHosted then .ok .imported else .ok .hosted
          else if (provider == "rke2" || provider == "k3s") && provider == driver then
            .ok .imported
          else if poolSize == 0 then
            .ok .custom
          else
            .ok .nodedriver

/-- A management cluster whose provider and driver are string-valued and whose
hosted config blocks are given by an association list. -/
def strMgmt (p d : String) (blocks : List (String × FieldVal)) : MgmtCluster :=
  { statusProvider := some (.str p), statusDriver := some (.str d), specHosted := blocks }

/-- C3 counterexample: a management cluster with provider = driver = "gke",
no hosted config block, and zero machine pools is classified as custom by the
code, while the claim (provider equal to driver yields imported, ahead of the
zero-pool rule) predicts imported.  The provider-equals-driver rule in the
source only fires when the provider is rke2 or k3s. -/
theorem getClusterType_claim_counterexample :
    getClusterType 0 (strMgmt "gke" "gke" []) = .ok ClusterType.custom ∧
    ClusterType.custom ≠ ClusterType.imported := by
  constructor
  · rfl
  · decide

/-- C3 (amended): the decision table of getClusterType, in order: a hosted
config block with imported=true yields imported; a hosted block with
imported=false yields hosted; otherwise provider equal to driver with the
provider being rke2 or k3s yields imported; otherwise zero machine pools
yields custom; otherwise nodedriver. -/
theorem getClusterType_decision_table (poolSize : Nat) (p d : String)
    (blocks : List (String × FieldVal)) (hosted imported : Bool)
    (hblocks : checkHostedBlocks (strMgmt p d blocks) importedHostedKeys = .ok (hosted, imported)) :
    (hosted = true → imported = true →
       getClusterType poolSize (strMgmt p d blocks) = .ok ClusterType.imported) ∧
    (hosted = true → imported = false →
       getClusterType poolSize (strMgmt p d blocks) = .ok ClusterType.hosted) ∧
    (hosted = false → ((p = "rke2" ∨ p = "k3s") ∧ p = d) →
       getClusterType poolSize (strMgmt p d blocks) = .ok ClusterType.imported) ∧
    (hosted = false → ¬((p = "rke2" ∨ p = "k3s") ∧ p = d) → poolSize = 0 →
       getClusterType poolSize (strMgmt p d blocks) = .ok ClusterType.custom) ∧
    (hosted = false → ¬((p = "rke2" ∨ p = "k3s") ∧ p = d) → poolSize ≠ 0 →
       getClusterType poolSize (strMgmt p d blocks) = .ok ClusterType.nodedriver) := by
  have hguard : ((p == "rke2" || p == "k3s") && p == d) = true ↔ ((p = "rke2" ∨ p = "k3s") ∧ p = d) := by
    simp [Bool.and_eq_true, Bool.or_eq_true, beq_iff_eq]
  have hb : checkHostedBlocks
      { statusProvider := some (FieldVal.str p), statusDriver := some (FieldVal.str d),
        specHosted := blocks } importedHostedKeys = Except.ok (hosted, imported) := by
    simpa [strMgmt] using hblocks
  refine ⟨?_, ?_, ?_, ?_, ?_⟩ <;> intro h1 h2
  · subst h1; subst h2
    simp [getClusterType, strMgmt, nestedString, hb]
  · subst h1; subst h2
    simp [getClusterType, strMgmt, nestedString, hb]
  · subst h1
    simp [getClusterType, strMgmt, nestedString, hb, hguard.mpr h2]
  · subst h1
    intro h3
    subst h3
    simp [getClusterType, strMgmt, nestedString, hb, h2]
  · subst h1
    intro h3
    simp [getClusterType, strMgmt, nestedString, hb, h2, h3]

/-- C3 witness: a cluster with provider = driver = "rke2" and no hosted block
is classified imported. -/
theorem getClusterType_decision_table_witness :
    getClusterType 3 (strMgmt "rke2" "rke2" []) = .ok ClusterType.imported :=
  (getClusterType_decision_table 3 "rke2" "rke2" [] false false rfl).2.2.1 rfl
    ⟨Or.inl rfl, rfl⟩

/-! ## Kind registry and resource gateway (tools.go, getResource / getResources) -/

/-- The zero value of schema.GroupVersionResource, produced by a Go map index
on a missing key. -/
def zeroGVR : GVR := ⟨"", "", ""⟩

/-- Modelled from the spec: the kind registry table K8sKindsToGVRs lives in
package converter, which is not among the provided sources.  Per the spec it
is a static table keyed by lowercase kind name; the entries shown are the
kinds the provided sources reference. -/
def K8sKindsToGVRs : List (String × GVR) := [
  ("pod", ⟨"", "v1", "pods"⟩),
  ("node", ⟨"", "v1", "nodes"⟩),
  ("replicaset", ⟨"apps", "v1", "replicasets"⟩),
  ("deployment", ⟨"apps", "v1", "deployments"⟩),
  ("statefulset", ⟨"apps", "v1", "statefulsets"⟩),
  ("daemonset", ⟨"apps", "v1", "daemonsets"⟩),
  ("pod.metrics.k8s.io", ⟨"metrics.k8s.io", "v1beta1", "pods"⟩),
  ("node.metrics.k8s.io", ⟨"metrics.k8s.io", "v1beta1", "nodes"⟩),
  ("machine", ⟨"cluster.x-k8s.io", "v1beta1", "machines"⟩),
  ("machineset", ⟨"cluster.x-k8s.io", "v1beta1", "machinesets"⟩),
  ("machinedeployment", ⟨"cluster.x-k8s.io", "v1beta1", "machinedeployments"⟩)]

/-- strings.ToLower restricted to the ASCII kind names the registry holds
(extensionally the same as String.toLower, written by structural recursion so
that concrete instances evaluate). -/
def toLowerKind (s : String) : String := String.mk (s.data.map Char.toLower)

/-- A Go map index K8sKindsToGVRs[kind]: the zero-value GVR when the key is
missing, with no error. -/
def lookupGVR (kind : String) : GVR := (K8sKindsToGVRs.lookup kind).getD zeroGVR

/-- A dynamic.ResourceInterface: get-one by name, list-many by label selector
(the empty string standing for an unset selector, the zero value of
metav1.ListOptions). -/
structure ResourceIf where
  getOne : String → Except K8sError K8sObject
  listMany : String → Except K8sError (List K8sObject)

/-- The K8sClient collaborator: GetResourceInterface for a namespace, cluster
and GVR (token and URL pass-throughs elided). -/
structure K8sBackend where
  resourceInterface : String → String → GVR → Except K8sError ResourceIf

/-- GetParams of tools.go restricted to the fields the gateway reads. -/
structure GetParams where
  cluster : String
  kind : String
  ns : String
  name : String

/-- ListParams of tools.go restricted to the fields the gateway reads. -/
structure ListParams where
  cluster : String
  kind : String
  ns : String
  labelSelector : String

/-- The composite of GetResourceInterface and ResourceInterface.Get at fixed
coordinates, as performed by Tools.getResource after the registry lookup. -/
def gatewayGetAt (b : K8sBackend) (ns cluster : String) (g : GVR) (name : String) :
    Except K8sError K8sObject :=
  match b.resourceInterface ns cluster g with
  | .error e => .error e
  | .ok ri => ri.getOne name

/-- The composite of GetResourceInterface and ResourceInterface.List at fixed
coordinates, as performed by Tools.getResources after the registry lookup. -/
def gatewayListAt (b : K8sBackend) (ns cluster : String) (g : GVR) (sel : String) :
    Except K8sError (List K8sObject) :=
  match b.resourceInterface ns cluster g with
  | .error e => .error e
  | .ok ri => ri.listMany sel

/-- Tools.getResource from tools.go: look the kind up in the registry
(lowercased, zero value on a miss) and fetch the named object. -/
def getResource (b : K8sBackend) (p : GetParams) : Except K8sError K8sObject :=
  gatewayGetAt b p.ns p.cluster (lookupGVR (toLowerKind p.kind)) p.name

/-- Tools.getResources from tools.go: look the kind up in the registry
(lowercased, zero value on a miss) and list, propagating the label selector. -/
def getResources (b : K8sBackend) (p : ListParams) : Except K8sError (List K8sObject) :=
  gatewayListAt b p.ns p.cluster (lookupGVR (toLowerKind p.kind)) p.labelSelector

/-- Modelled from the spec: the Kind Registry contract of section 4.1,
resolve(kindName) -> ResourceCoordinates, case-insensitive, failing with an
UnknownKind condition when the name has no mapping. -/
inductive KindResolution where
  | coords (g : GVR)
  | unknownKind
deriving DecidableEq

/-- Modelled from the spec: the resolve operation of the Kind Registry
contract. -/
def resolveSpec (kind : String) : KindResolution :=
  match K8sKindsToGVRs.lookup (toLowerKind kind) with
  | some g => .coords g
  | none => .unknownKind

/-- A backend that accepts every GVR and answers each get with an object that
records the coordinates it was asked for in its owner references. -/
def gvrEchoBackend : K8sBackend :=
  { resourceInterface := fun ns _cluster g =>
      .ok { getOne := fun nm =>
              .ok ⟨nm, ns, [⟨"gvr-group", g.group⟩, ⟨"gvr-resource", g.resource⟩], []⟩,
            listMany := fun _ => .ok [] } }

/-- C4 counterexample: for the kind "widget", which has no registry entry, the
spec contract resolves to UnknownKind, but getResource does not fail with any
unknown-kind condition: the Go map index yields the zero-value coordinates and
the operation proceeds to the gateway with those empty coordinates (here it
even succeeds, returning the object the backend serves at the empty GVR). -/
theorem getResource_unknown_kind_counterexample :
    resolveSpec "widget" = KindResolution.unknownKind ∧
    lookupGVR "widget" = zeroGVR ∧
    getResource gvrEchoBackend ⟨"c1", "widget", "ns1", "w1"⟩ =
      .ok ⟨"w1", "ns1", [⟨"gvr-group", ""⟩, ⟨"gvr-resource", ""⟩], []⟩ := by
  refine ⟨by decide, by decide, by decide⟩

/-- C4 (amended): for every kind name with no entry in the kind registry, the
lookup yields the zero-value coordinates and the get/list operation proceeds
to the gateway with those empty coordinates; no UnknownKind condition is
raised by the resolver, so any failure comes from the backend call itself. -/
theorem getResource_unknown_kind_zero_gvr :
    (∀ (b : K8sBackend) (p : GetParams), K8sKindsToGVRs.lookup (toLowerKind p.kind) = none →
       getResource b p = gatewayGetAt b p.ns p.cluster zeroGVR p.name) ∧
    (∀ (b : K8sBackend) (p : ListParams), K8sKindsToGVRs.lookup (toLowerKind p.kind) = none →
       getResources b p = gatewayListAt b p.ns p.cluster zeroGVR p.labelSelector) := by
  constructor
  · intro b p h
    simp [getResource, lookupGVR, h]
  · intro b p h
    simp [getResources, lookupGVR, h]

/-- C4 witness: the amended statement applied to the unknown kind "widget"
against the echoing backend. -/
theorem getResource_unknown_kind_zero_gvr_witness :
    getResource gvrEchoBackend ⟨"c1", "widget", "ns1", "w1"⟩ =
      gatewayGetAt gvrEchoBackend "ns1" "c1" zeroGVR "w1" :=
  getResource_unknown_kind_zero_gvr.1 gvrEchoBackend ⟨"c1", "widget", "ns1", "w1"⟩ (by decide)

/-! ## A store-backed backend, for list behaviour on empty results -/

/-- An object in the backing cluster: its coordinates, the object itself and
its labels. -/
structure StoredObject where
  gvr : GVR
  obj : K8sObject
  labels : List (String × String)
deriving DecidableEq

/-- Matching of the single-equality label selectors the sources construct
("key=value", empty string meaning no selector). -/
def selectorMatches (sel : String) (labels : List (String × String)) : Bool :=
  sel == "" || labels.any (fun kv => kv.1 ++ "=" ++ kv.2 == sel)

/-- The items a list call returns from the store: objects at the requested
coordinates, in the requested namespace (empty namespace meaning all), whose
labels satisfy the selector. -/
def listStore (objs : List StoredObject) (g : GVR) (ns sel : String) : List K8sObject :=
  (objs.filter (fun s => s.gvr == g && (ns == "" || s.obj.ns == ns) &&
    selectorMatches sel s.labels)).map (fun s => s.obj)

/-- A backend serving a fixed store: list returns the matching items (an empty
list when nothing matches, never an error), get returns the named object or
notFound. -/
def storeBackend (objs : List StoredObject) : K8sBackend :=
  { resourceInterface := fun ns _cluster g =>
      .ok { getOne := fun nm =>
              match (objs.filter (fun s => s.gvr == g && s.obj.ns == ns &&
                  s.obj.name == nm)).map (fun s => s.obj) with
              | [] => .error .notFound
              | o :: _ => .ok o,
            listMany := fun sel => .ok (listStore objs g ns sel) } }

/-- C8: a list over a store that holds zero items matching the request yields
the empty sequence and no error. -/
theorem getResources_empty_list (objs : List StoredObject) (p : ListParams)
    (hempty : listStore objs (lookupGVR (toLowerKind p.kind)) p.ns p.labelSelector = []) :
    getResources (storeBackend objs) p = .ok [] := by
  simp [getResources, gatewayListAt, storeBackend, hempty]

/-- C8 witness: listing deployments in a namespace whose store only holds a
pod in another namespace yields the empty sequence without error. -/
theorem getResources_empty_list_witness :
    getResources (storeBackend [⟨⟨"", "v1", "pods"⟩, ⟨"p1", "default", [], []⟩, []⟩])
      ⟨"c1", "deployment", "kube-system", ""⟩ = .ok [] :=
  getResources_empty_list _ _ (by decide)

/-! ## Tools environment

The higher-level operations (pod inspection, node listing, the CAPI machine
walk) call Tools.getResource / Tools.getResources / the pod-log stream.  A
ToolsEnv packages those three primitives: get and list are keyed by the kind
string exactly as the call sites pass it, and logStream answers one pod-log
request. -/

/-- One pod-log request as built by getPodLogs: corev1.PodLogOptions carries
the container name and the tail-lines bound, addressed to a pod by namespace
and name. -/
structure PodLogRequest where
  ns : String
  podName : String
  container : String
  tailLines : Nat
deriving DecidableEq

/-- The podLogsTailLines constant of tools.go. -/
def podLogsTailLines : Nat := 50

/-- The fetch primitives available to the tools. -/
structure ToolsEnv where
  get : String → String → String → Except K8sError K8sObject
  list : String → String → String → Except K8sError (List K8sObject)
  logStream : PodLogRequest → Except K8sError String

/-- Insertion into a Go map rendered as an association list: an existing key
is overwritten in place, a new key is appended. -/
def mapInsert : List (String × String) → String → String → List (String × String)
  | [], k, v => [(k, v)]
  | (k0, v0) :: rest, k, v =>
    if k0 = k then (k, v) :: rest else (k0, v0) :: mapInsert rest k v

/-- Tools.getPodLogs from tools.go: for each container of the pod, stream the
last podLogsTailLines lines into the logs map keyed by container name,
aborting on the first stream failure.  The first component of the result
records the requests issued, so that the tail-lines bound can be stated. -/
def getPodLogs (env : ToolsEnv) (pod : K8sObject) :
    Except K8sError (List PodLogRequest × List (String × String)) :=
  go pod.containers ([], [])
where
  go : List String → List PodLogRequest × List (String × String) →
      Except K8sError (List PodLogRequest × List (String × String))
  | [], acc => .ok acc
  | c :: rest, acc =>
    match env.logStream ⟨pod.ns, pod.name, c, podLogsTailLines⟩ with
    | .error e => .error e
    | .ok content =>
      go rest (acc.1 ++ [⟨pod.ns, pod.name, c, podLogsTailLines⟩], mapInsert acc.2 c content)

/-- Inserting a key absent from an association list appends it. -/
theorem mapInsert_of_not_mem (l : List (String × String)) (k v : String)
    (h : k ∉ l.map Prod.fst) : mapInsert l k v = l ++ [(k, v)] := by
  induction l with
  | nil => rfl
  | cons hd tl ih =>
    simp only [List.map_cons, List.mem_cons] at h
    push_neg at h
    cases hd with
    | mk k0 v0 =>
      simp only [mapInsert]
      rw [if_neg (by simpa using Ne.symm h.1), ih h.2]
      simp

/-- Auxiliary induction for getPodLogs: starting from an accumulator, a
successful run appends one request with the tail-lines constant per remaining
container, and (when the remaining container names are distinct and disjoint
from the accumulated keys) one log entry per remaining container. -/
theorem getPodLogs_go_spec (env : ToolsEnv) (pod : K8sObject) :
    ∀ (cs : List String) (acc : List PodLogRequest × List (String × String))
      (reqs : List PodLogRequest) (logs : List (String × String)),
      getPodLogs.go env pod cs acc = .ok (reqs, logs) →
      reqs = acc.1 ++ cs.map (fun c => ⟨pod.ns, pod.name, c, podLogsTailLines⟩) ∧
      (cs.Nodup → (∀ c ∈ cs, c ∉ acc.2.map Prod.fst) →
        logs.map Prod.fst = acc.2.map Prod.fst ++ cs) := by
  intro cs
  induction cs with
  | nil =>
    intro acc reqs logs h
    simp only [getPodLogs.go] at h
    cases h
    simp
  | cons c rest ih =>
    intro acc reqs logs h
    simp only [getPodLogs.go] at h
    cases hs : env.logStream ⟨pod.ns, pod.name, c, podLogsTailLines⟩ with
    | error e => rw [hs] at h; cases h
    | ok content =>
      rw [hs] at h
      obtain ⟨h1, h2⟩ := ih _ _ _ h
      constructor
      · rw [h1]; simp
      · intro hnd hdisj
        obtain ⟨hc, hrest⟩ := List.nodup_cons.mp hnd
        have hkeys : (mapInsert acc.2 c content).map Prod.fst = acc.2.map Prod.fst ++ [c] := by
          rw [mapInsert_of_not_mem _ _ _ (hdisj c (by simp))]
          simp
        have := h2 hrest (by
          intro x hx
          rw [hkeys]
          simp only [List.mem_append, List.mem_singleton]
          push_neg
          exact ⟨hdisj x (by simp [hx]), by intro hxc; exact hc (hxc ▸ hx)⟩)
        rw [this, hkeys]
        simp

/-- C10: every log request getPodLogs issues is bounded to the last
podLogsTailLines (= 50) lines — on success the issued requests are exactly one
per container, each with that bound — and, the container names of a pod spec
being distinct, the returned logs object holds exactly one entry per
container, keyed by container name. -/
theorem getPodLogs_tail_lines (env : ToolsEnv) (pod : K8sObject)
    (reqs : List PodLogRequest) (logs : List (String × String))
    (h : getPodLogs env pod = .ok (reqs, logs)) :
    reqs = pod.containers.map (fun c => ⟨pod.ns, pod.name, c, podLogsTailLines⟩) ∧
    (pod.containers.Nodup → logs.map Prod.fst = pod.containers) := by
  obtain ⟨h1, h2⟩ := getPodLogs_go_spec env pod pod.containers ([], []) reqs logs h
  refine ⟨by simpa using h1, fun hnd => by simpa using h2 hnd (by simp)⟩

/-- A pod with two containers, against an environment whose log streams all
succeed. -/
def podTwoContainers : K8sObject := ⟨"p1", "ns1", [], ["app", "sidecar"]⟩

/-- An environment whose log streams always succeed with a fixed line. -/
def logOkEnv : ToolsEnv :=
  { get := fun _ _ _ => .error .notFound,
    list := fun _ _ _ => .ok [],
    logStream := fun _ => .ok "log line" }

/-- C10 witness: the tail-lines theorem applied to a concrete two-container
pod. -/
theorem getPodLogs_tail_lines_witness :
    ([(⟨"ns1", "p1", "app", podLogsTailLines⟩ : PodLogRequest),
      ⟨"ns1", "p1", "sidecar", podLogsTailLines⟩] =
        podTwoContainers.containers.map
          (fun c => (⟨podTwoContainers.ns, podTwoContainers.name, c,
            podLogsTailLines⟩ : PodLogRequest))) ∧
    ([("app", "log line"), ("sidecar", "log line")].map Prod.fst =
       podTwoContainers.containers) := by
  have h := getPodLogs_tail_lines logOkEnv podTwoContainers
    [⟨"ns1", "p1", "app", podLogsTailLines⟩, ⟨"ns1", "p1", "sidecar", podLogsTailLines⟩]
    [("app", "log line"), ("sidecar", "log line")] (by decide)
  exact ⟨h.1, h.2 (by decide)⟩

/-! ## Pattern A walk: InspectPod (workloads.go) and GetNodes (provisioning.go) -/

/-- An item of an inspection bundle: a fetched resource or the synthetic
pod-logs object. -/
inductive BundleItem where
  | res (o : K8sObject)
  | podLogs (entries : List (String × String))
deriving DecidableEq

/-- The first owner reference of the given kind (the loop with break in
InspectPod), or the empty string when there is none. -/
def firstOwnerOfKind (refs : List OwnerReference) (kind : String) : String :=
  match refs.find? (fun o => o.kind == kind) with
  | some o => o.name
  | none => ""

/-- The parent-controller reference selected from a replica set: the first
owner whose kind is Deployment, StatefulSet or DaemonSet, as (name, kind);
("", "") when there is none. -/
def parentWorkloadRef (refs : List OwnerReference) : String × String :=
  match refs.find? (fun o =>
      o.kind == "Deployment" || o.kind == "StatefulSet" || o.kind == "DaemonSet") with
  | some o => (o.name, o.kind)
  | none => ("", "")

/-- Tools.InspectPod from workloads.go: fetch the pod, fetch the replica set
named by the first ReplicaSet owner reference (the empty name when the pod
has none), fetch the parent controller named by the replica set, fetch the
pod metrics ignoring any error, stream the logs, and bundle pod, parent and
logs, appending the metrics object when its fetch succeeded.  The conversion
of the unstructured pod to a typed one is elided (K8sObject is already
typed), and the response formatting is out of scope. -/
def InspectPod (env : ToolsEnv) (ns name : String) : Except K8sError (List BundleItem) :=
  match env.get "pod" ns name with
  | .error e => .error e
  | .ok pod =>
    match env.get "replicaset" ns (firstOwnerOfKind pod.ownerRefs "ReplicaSet") with
    | .error e => .error e
    | .ok rs =>
      match env.get (parentWorkloadRef rs.ownerRefs).2 ns (parentWorkloadRef rs.ownerRefs).1 with
      | .error e => .error e
      | .ok parent =>
        let metrics : Option K8sObject :=
          match env.get "pod.metrics.k8s.io" ns name with
          | .error _ => none
          | .ok m => some m
        match getPodLogs env pod with
        | .error e => .error e
        | .ok (_, logEntries) =>
          .ok ([BundleItem.res pod, BundleItem.res parent, BundleItem.podLogs logEntries] ++
               (match metrics with | some m => [BundleItem.res m] | none => []))

/-- Tools.GetNodes from provisioning.go: list the nodes (propagating any
error), list the node metrics ignoring any error (the nil slice standing in
for a failed list), and bundle both. -/
def GetNodes (env : ToolsEnv) : Except K8sError (List K8sObject) :=
  match env.list "node" "" "" with
  | .error e => .error e
  | .ok nodes =>
    let metrics : List K8sObject :=
      match env.list "node.metrics.k8s.io" "" "" with
      | .error _ => []
      | .ok ms => ms
    .ok (nodes ++ metrics)

/-- A pod owned by a Job only: its owner references contain no ReplicaSet
entry. -/
def jobOwnedPod : K8sObject := ⟨"p1", "ns1", [⟨"Job", "j1"⟩], ["main"]⟩

/-- An environment holding exactly that pod; every other get (in particular
the replica-set get with the empty name that a real API server rejects)
fails with notFound, and log streams succeed. -/
def jobOwnedPodEnv : ToolsEnv :=
  { get := fun kind ns nm =>
      if kind == "pod" && ns == "ns1" && nm == "p1" then .ok jobOwnedPod
      else .error .notFound,
    list := fun _ _ _ => .ok [],
    logStream := fun _ => .ok "log line" }

/-- C2: for a pod with no ReplicaSet owner reference, InspectPod does not
return a bundle of just the pod and its logs: the code unconditionally issues
the replica-set fetch with the empty owner name, and the error of that fetch
aborts the whole inspection. -/
theorem inspectPod_orphan_pod_fails :
    InspectPod jobOwnedPodEnv "ns1" "p1" = .error K8sError.notFound ∧
    InspectPod jobOwnedPodEnv "ns1" "p1" ≠
      .ok [BundleItem.res jobOwnedPod, BundleItem.podLogs [("main", "log line")]] := by
  refine ⟨by decide, by decide⟩

/-- C6: a failed metrics fetch never fails an inspection.  For InspectPod:
when the pod, replica set, parent and logs are all retrieved but the
pod-metrics get fails with any error, the inspection succeeds and the bundle
holds pod, parent and logs with no metrics entry.  For GetNodes: when the
node list succeeds but the node-metrics list fails with any error, the call
succeeds and returns exactly the nodes. -/
theorem metrics_fetch_failure_is_optional :
    (∀ (env : ToolsEnv) (ns nm : String) (pod rs parent : K8sObject)
       (reqs : List PodLogRequest) (entries : List (String × String)) (e : K8sError),
       env.get "pod" ns nm = .ok pod →
       env.get "replicaset" ns (firstOwnerOfKind pod.ownerRefs "ReplicaSet") = .ok rs →
       env.get (parentWorkloadRef rs.ownerRefs).2 ns (parentWorkloadRef rs.ownerRefs).1 =
         .ok parent →
       env.get "pod.metrics.k8s.io" ns nm = .error e →
       getPodLogs env pod = .ok (reqs, entries) →
       InspectPod env ns nm =
         .ok [BundleItem.res pod, BundleItem.res parent, BundleItem.podLogs entries]) ∧
    (∀ (env : ToolsEnv) (nodes : List K8sObject) (e : K8sError),
       env.list "node" "" "" = .ok nodes →
       env.list "node.metrics.k8s.io" "" "" = .error e →
       GetNodes env = .ok nodes) := by
  constructor
  · intro env ns nm pod rs parent reqs entries e hpod hrs hparent hmetrics hlogs
    simp only [InspectPod, hpod, hrs, hparent, hmetrics, hlogs]
    simp
  · intro env nodes e hnodes hmetrics
    simp only [GetNodes, hnodes, hmetrics]
    simp

/-- A pod owned by a replica set, which is owned by a deployment. -/
def rsOwnedPod : K8sObject := ⟨"p2", "ns2", [⟨"ReplicaSet", "rs2"⟩], ["main"]⟩

/-- The replica set owning rsOwnedPod. -/
def rsOfPod : K8sObject := ⟨"rs2", "ns2", [⟨"Deployment", "d2"⟩], []⟩

/-- The deployment owning rsOfPod. -/
def deployOfPod : K8sObject := ⟨"d2", "ns2", [], []⟩

/-- An environment serving that chain, with node listing but failing metrics
endpoints. -/
def metricsDownEnv : ToolsEnv :=
  { get := fun kind _ns nm =>
      if kind == "pod" && nm == "p2" then .ok rsOwnedPod
      else if kind == "replicaset" && nm == "rs2" then .ok rsOfPod
      else if kind == "Deployment" && nm == "d2" then .ok deployOfPod
      else .error .notFound,
    list := fun kind _ns _sel =>
      if kind == "node" then .ok [⟨"n1", "", [], []⟩]
      else .error .unavailable,
    logStream := fun _ => .ok "log line" }

/-- C6 witness: both halves of the optional-metrics theorem applied to the
concrete failing-metrics environment. -/
theorem metrics_fetch_failure_is_optional_witness :
    InspectPod metricsDownEnv "ns2" "p2" =
      .ok [BundleItem.res rsOwnedPod, BundleItem.res deployOfPod,
           BundleItem.podLogs [("main", "log line")]] ∧
    GetNodes metricsDownEnv = .ok [⟨"n1", "", [], []⟩] := by
  constructor
  · exact metrics_fetch_failure_is_optional.1 metricsDownEnv "ns2" "p2" rsOwnedPod rsOfPod
      deployOfPod [⟨"ns2", "p2", "main", podLogsTailLines⟩] [("main", "log line")]
      K8sError.notFound (by decide) (by decide) (by decide) (by decide) (by decide)
  · exact metrics_fetch_failure_is_optional.2 metricsDownEnv [⟨"n1", "", [], []⟩]
      K8sError.unavailable (by decide) (by decide)

/-! ## Pattern B walk: getCAPIMachineResources (provisioning.go)

The walk lists the CAPI machines of a cluster, then for each machine fetches
its owning machine set (deduplicated through machineSetMap) and, for each
freshly fetched machine set, the owning machine deployments (deduplicated
through machineDeploymentMap).  The WalkState carries the two dedup maps, the
three output collections, and an instrumentation log of the get requests
issued, so that fetch-count properties can be stated. -/

/-- CAPIMachineDeploymentKind from provisioning.go. -/
def CAPIMachineDeploymentKind : String := "MachineDeployment"

/-- CAPIMachineSetKind from provisioning.go. -/
def CAPIMachineSetKind : String := "MachineSet"

/-- Modelled from the spec: converter.CAPIMachineResourceKind (the converter
package is not among the provided sources); the value only serves as the
registry key for the machine kind. -/
def CAPIMachineResourceKind : String := "machine"

/-- Modelled from the spec: converter.CAPIMachineSetResourceKind. -/
def CAPIMachineSetResourceKind : String := "machineset"

/-- Modelled from the spec: converter.CAPIMachineDeploymentResourceKind. -/
def CAPIMachineDeploymentResourceKind : String := "machinedeployment"

/-- The namespace defaulting at the top of getCAPIMachineResources. -/
def defaultNamespace (ns : String) : String := if ns = "" then "fleet-default" else ns

/-- The label selector built from the cluster-name label for the machine
list call.  Label-value validation of LabelSelectorAsSelector is elided: the
claims under study concern the fetches of the walk. -/
def clusterSelector (target : String) : String :=
  "cluster.x-k8s.io/cluster-name=" ++ target

/-- The identity of one get request issued during the walk. -/
structure FetchKey where
  kind : String
  ns : String
  name : String
deriving DecidableEq

/-- The local state of one traversal. -/
structure WalkState where
  machineSetMap : List String
  machineDeploymentMap : List String
  capiMachines : List K8sObject
  capiMachineSets : List K8sObject
  capiMachineDeployments : List K8sObject
  fetchLog : List FetchKey
deriving DecidableEq

/-- The state at the start of a traversal: empty maps and collections. -/
def initialWalkState : WalkState := ⟨[], [], [], [], [], []⟩

/-- The owner-reference scan of the walk (a loop without break): the name of
the last owner reference of the given kind, or the empty string. -/
def lastOwnerOfKind (refs : List OwnerReference) (kind : String) : String :=
  refs.foldl (fun acc o => if o.kind = kind then o.name else acc) ""

/-- The key of a machine-set get. -/
def msFetchKey (ns n : String) : FetchKey := ⟨CAPIMachineSetResourceKind, ns, n⟩

/-- The key of a machine-deployment get. -/
def mdFetchKey (ns n : String) : FetchKey := ⟨CAPIMachineDeploymentResourceKind, ns, n⟩

/-- The inner loop of the walk over a freshly fetched machine set: for each
owner reference of kind MachineDeployment whose name is not yet in the dedup
map, fetch it, append it to the outputs and record it. -/
def processSetOwners (env : ToolsEnv) (ns : String) :
    WalkState → List OwnerReference → Except K8sError WalkState
  | st, [] => .ok st
  | st, owner :: rest =>
    if owner.kind ≠ CAPIMachineDeploymentKind then processSetOwners env ns st rest
    else if owner.name ∈ st.machineDeploymentMap then processSetOwners env ns st rest
    else
      match env.get CAPIMachineDeploymentResourceKind ns owner.name with
      | .error e => .error e
      | .ok md =>
        processSetOwners env ns
          { st with
            capiMachineDeployments := st.capiMachineDeployments ++ [md],
            machineDeploymentMap := st.machineDeploymentMap ++ [owner.name],
            fetchLog := st.fetchLog ++ [mdFetchKey ns owner.name] } rest

/-- One iteration of the machine loop of getCAPIMachineResources: apply the
machine-name filter, retain the machine, and when it names a machine set not
yet fetched, fetch the set (recording the fetched object name in the dedup
map, as the source does) and walk its owners; a machine whose set was already
fetched contributes nothing further (the nil machineSet continue). -/
def processMachine (env : ToolsEnv) (ns machineName : String) (st : WalkState)
    (machine : K8sObject) : Except K8sError WalkState :=
  if machineName ≠ "" ∧ machine.name ≠ machineName then .ok st
  else
    let st1 := { st with capiMachines := st.capiMachines ++ [machine] }
    let setName := lastOwnerOfKind machine.ownerRefs CAPIMachineSetKind
    if setName = "" then .ok st1
    else if setName ∈ st1.machineSetMap then .ok st1
    else
      match env.get CAPIMachineSetResourceKind ns setName with
      | .error e => .error e
      | .ok machineSet =>
        processSetOwners env ns
          { st1 with
            capiMachineSets := st1.capiMachineSets ++ [machineSet],
            machineSetMap := st1.machineSetMap ++ [machineSet.name],
            fetchLog := st1.fetchLog ++ [msFetchKey ns setName] }
          machineSet.ownerRefs

/-- The machine loop of getCAPIMachineResources, aborting on the first
error. -/
def processMachines (env : ToolsEnv) (ns machineName : String) :
    WalkState → List K8sObject → Except K8sError WalkState
  | st, [] => .ok st
  | st, m :: rest =>
    match processMachine env ns machineName st m with
    | .error e => .error e
    | .ok st1 => processMachines env ns machineName st1 rest

/-- getCAPIMachineResourcesParams from provisioning.go. -/
structure GetCAPIMachineResourcesParams where
  ns : String
  targetCluster : String
  machineName : String

/-- getCAPIMachineResources from provisioning.go: default the namespace, list
the machines of the target cluster by label selector, treat a notFound of
that list as an empty result, and run the machine loop. -/
def getCAPIMachineResources (env : ToolsEnv) (params : GetCAPIMachineResourcesParams) :
    Except K8sError WalkState :=
  let ns := defaultNamespace params.ns
  match env.list CAPIMachineResourceKind ns (clusterSelector params.targetCluster) with
  | .error e => if e = K8sError.notFound then .ok initialWalkState else .error e
  | .ok machines => processMachines env ns params.machineName initialWalkState machines

/-- Name coherence of the backing API: a machine-set get that succeeds
returns an object bearing the requested name (the Kubernetes get-by-name
guarantee, needed because the source records the fetched object name in its
dedup map). -/
def MachineSetNameCoherent (env : ToolsEnv) : Prop :=
  ∀ ns n o, env.get CAPIMachineSetResourceKind ns n = .ok o → o.name = n

/-- The invariant of one traversal: the fetch log has no duplicates, and each
dedup map holds exactly the names already fetched for its kind. -/
def WalkInv (ns : String) (st : WalkState) : Prop :=
  st.fetchLog.Nodup ∧
  (∀ n, n ∈ st.machineSetMap ↔ msFetchKey ns n ∈ st.fetchLog) ∧
  (∀ n, n ∈ st.machineDeploymentMap ↔ mdFetchKey ns n ∈ st.fetchLog)

/-- Machine-set keys and machine-deployment keys never coincide. -/
theorem msFetchKey_ne_mdFetchKey (ns1 n1 ns2 n2 : String) :
    msFetchKey ns1 n1 ≠ mdFetchKey ns2 n2 := by
  intro h
  have hk := congrArg FetchKey.kind h
  simp [msFetchKey, mdFetchKey, CAPIMachineSetResourceKind,
    CAPIMachineDeploymentResourceKind] at hk

/-- The inner owner loop: it leaves the machine-set map and the machine
collection untouched, only appends to the fetch log, and preserves the
traversal invariant. -/
theorem processSetOwners_spec (env : ToolsEnv) (ns : String) :
    ∀ (refs : List OwnerReference) (st st' : WalkState),
      processSetOwners env ns st refs = .ok st' →
      st'.machineSetMap = st.machineSetMap ∧
      st'.capiMachines = st.capiMachines ∧
      (∃ t, st'.fetchLog = st.fetchLog ++ t) ∧
      (WalkInv ns st → WalkInv ns st') := by
  intro refs
  induction refs with
  | nil =>
    intro st st' h
    simp only [processSetOwners] at h
    cases h
    exact ⟨rfl, rfl, ⟨[], by simp⟩, fun hi => hi⟩
  | cons owner rest ih =>
    intro st st' h
    simp only [processSetOwners] at h
    by_cases hk : owner.kind ≠ CAPIMachineDeploymentKind
    · rw [if_pos hk] at h
      exact ih st st' h
    · rw [if_neg hk] at h
      by_cases hm : owner.name ∈ st.machineDeploymentMap
      · rw [if_pos hm] at h
        exact ih st st' h
      · rw [if_neg hm] at h
        cases hg : env.get CAPIMachineDeploymentResourceKind ns owner.name with
        | error e => rw [hg] at h; cases h
        | ok md =>
          rw [hg] at h
          obtain ⟨h1, h2, ⟨t, h3⟩, h4⟩ := ih _ st' h
          refine ⟨by rw [h1], by rw [h2],
            ⟨mdFetchKey ns owner.name :: t, by rw [h3]; simp⟩, ?_⟩
          intro hinv
          apply h4
          obtain ⟨hnd, hms, hmd⟩ := hinv
      -- the extended state still satisfies the invariant
          have hnotlog : mdFetchKey ns owner.name ∉ st.fetchLog := fun hc =>
            hm ((hmd owner.name).mpr hc)
          refine ⟨?_, ?_, ?_⟩
          · simp only [List.nodup_append, List.nodup_cons, List.nodup_nil]
            exact ⟨hnd, by simp, by simpa [List.disjoint_singleton] using hnotlog⟩
          · intro n
            rw [hms n]
            simp only [List.mem_append, List.mem_singleton]
            constructor
            · exact fun hmem => Or.inl hmem
            · rintro (hmem | hkey)
              · exact hmem
              · exact absurd hkey (msFetchKey_ne_mdFetchKey ns n ns owner.name)
          · intro n
            simp only [List.mem_append, List.mem_singleton]
            rw [hmd n]
            constructor
            · rintro (hmem | hn)
              · exact Or.inl hmem
              · subst hn; exact Or.inr rfl
            · rintro (hmem | hkey)
              · exact Or.inl hmem
              · right
                have := congrArg FetchKey.name hkey
                simpa [mdFetchKey] using this

/-- Keys of the same kind and namespace agree exactly on names. -/
theorem msFetchKey_inj (ns a b : String) : msFetchKey ns a = msFetchKey ns b ↔ a = b := by
  constructor
  · intro h
    simpa [msFetchKey] using congrArg FetchKey.name h
  · intro h
    rw [h]

/-- One machine iteration: it only appends to the fetch log, preserves the
traversal invariant (given name coherence of machine-set gets), appends the
machine to the leaf output exactly when it passes the name filter, is the
identity on a filtered-out machine, and — in an unfiltered traversal — leaves
the key of the machine set named by the machine in the fetch log. -/
theorem processMachine_spec (env : ToolsEnv) (ns mn : String)
    (hcoh : MachineSetNameCoherent env) :
    ∀ (st : WalkState) (m : K8sObject) (st' : WalkState),
      processMachine env ns mn st m = .ok st' →
      (∃ t, st'.fetchLog = st.fetchLog ++ t) ∧
      (WalkInv ns st → WalkInv ns st') ∧
      ((mn = "" ∨ m.name = mn) → st'.capiMachines = st.capiMachines ++ [m]) ∧
      (mn ≠ "" → m.name ≠ mn → st' = st) ∧
      (WalkInv ns st → mn = "" → lastOwnerOfKind m.ownerRefs CAPIMachineSetKind ≠ "" →
        msFetchKey ns (lastOwnerOfKind m.ownerRefs CAPIMachineSetKind) ∈ st'.fetchLog) := by
  intro st m st' h
  simp only [processMachine] at h
  by_cases hf : mn ≠ "" ∧ m.name ≠ mn
  · rw [if_pos hf] at h
    cases h
    refine ⟨⟨[], by simp⟩, fun hi => hi, ?_, fun _ _ => rfl, ?_⟩
    · rintro (h0 | h0)
      · exact absurd h0 hf.1
      · exact absurd h0 hf.2
    · intro _ h0 _
      exact absurd h0 hf.1
  · rw [if_neg hf] at h
    by_cases h0 : lastOwnerOfKind m.ownerRefs CAPIMachineSetKind = ""
    · rw [if_pos h0] at h
      cases h
      refine ⟨⟨[], by simp⟩, ?_, fun _ => rfl, ?_, ?_⟩
      · intro hi
        exact hi
      · intro ha hb
        exact absurd ⟨ha, hb⟩ hf
      · intro _ _ hne
        exact absurd h0 hne
    · rw [if_neg h0] at h
      by_cases h1 : lastOwnerOfKind m.ownerRefs CAPIMachineSetKind ∈ st.machineSetMap
      · rw [if_pos (by simpa using h1)] at h
        cases h
        refine ⟨⟨[], by simp⟩, fun hi => hi, fun _ => rfl, ?_, ?_⟩
        · intro ha hb
          exact absurd ⟨ha, hb⟩ hf
        · intro hinv _ _
          exact (hinv.2.1 _).mp h1
      · rw [if_neg (by simpa using h1)] at h
        cases hg : env.get CAPIMachineSetResourceKind ns
            (lastOwnerOfKind m.ownerRefs CAPIMachineSetKind) with
        | error e =>
          rw [hg] at h
          cases h
        | ok machineSet =>
          rw [hg] at h
          have hname : machineSet.name = lastOwnerOfKind m.ownerRefs CAPIMachineSetKind :=
            hcoh ns _ machineSet hg
          obtain ⟨hm1, hm2, ⟨t, hm3⟩, hm4⟩ := processSetOwners_spec env ns _ _ st' h
          have hlog : st'.fetchLog = st.fetchLog ++
              ([msFetchKey ns (lastOwnerOfKind m.ownerRefs CAPIMachineSetKind)] ++ t) := by
            rw [hm3]
            simp
          refine ⟨⟨_, hlog⟩, ?_, ?_, ?_, ?_⟩
          · intro hinv
            apply hm4
            obtain ⟨hnd, hms, hmd⟩ := hinv
            have hnotlog :
                msFetchKey ns (lastOwnerOfKind m.ownerRefs CAPIMachineSetKind) ∉ st.fetchLog :=
              fun hc => h1 ((hms _).mpr hc)
            refine ⟨?_, ?_, ?_⟩
            · simp only [List.nodup_append, List.nodup_cons, List.nodup_nil]
              exact ⟨hnd, by simp, by simpa [List.disjoint_singleton] using hnotlog⟩
            · intro n
              simp only [List.mem_append, List.mem_singleton]
              rw [hms n, hname, msFetchKey_inj]
            · intro n
              simp only [List.mem_append, List.mem_singleton]
              rw [hmd n]
              constructor
              · exact fun hmem => Or.inl hmem
              · rintro (hmem | hkey)
                · exact hmem
                · exact absurd hkey.symm (msFetchKey_ne_mdFetchKey ns _ ns n)
          · intro _
            rw [hm2]
          · intro ha hb
            exact absurd ⟨ha, hb⟩ hf
          · intro _ _ _
            rw [hlog]
            simp

/-- The machine loop: from an invariant state, a successful run preserves the
invariant, only appends to the fetch log, and leaves in the log the
machine-set key named by every listed machine that names one (unfiltered
traversal). -/
theorem processMachines_spec (env : ToolsEnv) (ns mn : String)
    (hcoh : MachineSetNameCoherent env) :
    ∀ (l : List K8sObject) (st st' : WalkState),
      WalkInv ns st →
      processMachines env ns mn st l = .ok st' →
      WalkInv ns st' ∧
      (∃ t, st'.fetchLog = st.fetchLog ++ t) ∧
      (mn = "" → ∀ m ∈ l, lastOwnerOfKind m.ownerRefs CAPIMachineSetKind ≠ "" →
        msFetchKey ns (lastOwnerOfKind m.ownerRefs CAPIMachineSetKind) ∈ st'.fetchLog) := by
  intro l
  induction l with
  | nil =>
    intro st st' hinv h
    simp only [processMachines] at h
    cases h
    exact ⟨hinv, ⟨[], by simp⟩, by simp⟩
  | cons m rest ih =>
    intro st st' hinv h
    simp only [processMachines] at h
    cases hp : processMachine env ns mn st m with
    | error e =>
      rw [hp] at h
      cases h
    | ok st1 =>
      rw [hp] at h
      obtain ⟨⟨t1, hlog1⟩, hinv1, _, _, hmem1⟩ := processMachine_spec env ns mn hcoh st m st1 hp
      obtain ⟨hinv2, ⟨t2, hlog2⟩, hmem2⟩ := ih st1 st' (hinv1 hinv) h
      refine ⟨hinv2, ⟨t1 ++ t2, by rw [hlog2, hlog1]; simp⟩, ?_⟩
      intro hmn m0 hm0 hso
      rcases List.mem_cons.mp hm0 with hm0 | hm0
      · subst hm0
        have := hmem1 hinv hmn hso
        rw [hlog2]
        exact List.mem_append_left _ this
      · exact hmem2 hmn m0 hm0 hso

/-- The machine loop aborts with the error of the first failing iteration,
skipping the remaining machines. -/
theorem processMachines_append_error (env : ToolsEnv) (ns mn : String) :
    ∀ (l1 : List K8sObject) (st st' : WalkState) (m : K8sObject) (l2 : List K8sObject)
      (e : K8sError),
      processMachines env ns mn st l1 = .ok st' →
      processMachine env ns mn st' m = .error e →
      processMachines env ns mn st (l1 ++ m :: l2) = .error e := by
  intro l1
  induction l1 with
  | nil =>
    intro st st' m l2 e h1 h2
    simp only [processMachines] at h1
    cases h1
    simp only [List.nil_append, processMachines, h2]
  | cons m0 rest ih =>
    intro st st' m l2 e h1 h2
    simp only [processMachines] at h1
    cases hp : processMachine env ns mn st m0 with
    | error e0 =>
      rw [hp] at h1
      cases h1
    | ok st1 =>
      rw [hp] at h1
      simp only [List.cons_append, processMachines, hp]
      exact ih st1 st' m l2 e h1 h2

/-- With a non-empty machine-name filter, the machine loop agrees with the
loop over just the machines bearing that name: a filtered-out machine is a
no-op iteration. -/
theorem processMachines_filter (env : ToolsEnv) (ns mn : String) (hmn : mn ≠ "") :
    ∀ (l : List K8sObject) (st : WalkState),
      processMachines env ns mn st l =
        processMachines env ns mn st (l.filter (fun m => m.name == mn)) := by
  intro l
  induction l with
  | nil =>
    intro st
    rfl
  | cons m rest ih =>
    intro st
    by_cases hname : m.name = mn
    · rw [List.filter_cons_of_pos (by simpa using hname)]
      simp only [processMachines]
      cases hp : processMachine env ns mn st m with
      | error e => rfl
      | ok st1 => exact ih st1
    · rw [List.filter_cons_of_neg (by simpa using hname)]
      have hskip : processMachine env ns mn st m = .ok st := by
        simp only [processMachine]
        rw [if_pos ⟨hmn, hname⟩]
      simp only [processMachines, hskip]
      exact ih st

/-- Over machines that all pass the name filter, a successful machine loop
appends exactly those machines to the leaf output. -/
theorem processMachines_all_pass (env : ToolsEnv) (ns mn : String)
    (hcoh : MachineSetNameCoherent env) :
    ∀ (l : List K8sObject) (st st' : WalkState),
      (∀ m ∈ l, mn = "" ∨ m.name = mn) →
      processMachines env ns mn st l = .ok st' →
      st'.capiMachines = st.capiMachines ++ l := by
  intro l
  induction l with
  | nil =>
    intro st st' _ h
    simp only [processMachines] at h
    cases h
    simp
  | cons m rest ih =>
    intro st st' hpass h
    simp only [processMachines] at h
    cases hp : processMachine env ns mn st m with
    | error e =>
      rw [hp] at h
      cases h
    | ok st1 =>
      rw [hp] at h
      obtain ⟨_, _, hcapi, _, _⟩ := processMachine_spec env ns mn hcoh st m st1 hp
      have h1 := hcapi (hpass m (by simp))
      have h2 := ih st1 st' (fun m0 hm0 => hpass m0 (by simp [hm0])) h
      rw [h2, h1]
      simp

/-- A machine with no owner reference of the MachineSet kind names no machine
set: the owner scan returns the empty string. -/
theorem lastOwnerOfKind_eq_empty (refs : List OwnerReference) (kind : String)
    (h : ∀ o ∈ refs, o.kind ≠ kind) : lastOwnerOfKind refs kind = "" := by
  have : ∀ acc, refs.foldl (fun acc o => if o.kind = kind then o.name else acc) acc = acc := by
    induction refs with
    | nil => intro acc; rfl
    | cons o rest ih =>
      intro acc
      simp only [List.foldl_cons]
      rw [if_neg (h o (by simp))]
      exact ih (fun o0 ho0 => h o0 (by simp [ho0])) acc
  exact this ""

/-- One iteration on a machine that passes the filter and has no MachineSet
owner reference: the machine is retained and nothing else changes. -/
theorem processMachine_orphan (env : ToolsEnv) (ns mn : String) (st : WalkState)
    (m : K8sObject) (horph : ∀ o ∈ m.ownerRefs, o.kind ≠ CAPIMachineSetKind)
    (hpass : mn = "" ∨ m.name = mn) :
    processMachine env ns mn st m = .ok { st with capiMachines := st.capiMachines ++ [m] } := by
  simp only [processMachine]
  rw [if_neg (by
    rintro ⟨ha, hb⟩
    rcases hpass with h0 | h0
    · exact ha h0
    · exact hb h0)]
  rw [if_pos (lastOwnerOfKind_eq_empty m.ownerRefs CAPIMachineSetKind horph)]

/-- The empty traversal state satisfies the invariant. -/
theorem walkInv_initial (ns : String) : WalkInv ns initialWalkState := by
  refine ⟨by simp [initialWalkState], ?_, ?_⟩ <;> intro n <;> simp [initialWalkState]

/-- C1: in one unfiltered traversal of getCAPIMachineResources (with the
backing API returning objects under their requested names), the fetch log
has no duplicate (kind, namespace, name) entry — every machine set and every
machine deployment is fetched at most once — and every machine set named by
some listed machine is fetched exactly once, however many machines share it:
the visited-set records it at its first fetch. -/
theorem getCAPIMachineResources_dedup (env : ToolsEnv) (ns tc : String)
    (machines : List K8sObject) (st : WalkState)
    (hcoh : MachineSetNameCoherent env)
    (hlist : env.list CAPIMachineResourceKind (defaultNamespace ns)
      (clusterSelector tc) = .ok machines)
    (hrun : getCAPIMachineResources env ⟨ns, tc, ""⟩ = .ok st) :
    st.fetchLog.Nodup ∧
    (∀ m ∈ machines, lastOwnerOfKind m.ownerRefs CAPIMachineSetKind ≠ "" →
      st.fetchLog.count
        (msFetchKey (defaultNamespace ns) (lastOwnerOfKind m.ownerRefs CAPIMachineSetKind)) = 1) := by
  simp only [getCAPIMachineResources] at hrun
  rw [hlist] at hrun
  obtain ⟨hinv, _, hmem⟩ :=
    processMachines_spec env (defaultNamespace ns) "" hcoh machines initialWalkState st
      (walkInv_initial (defaultNamespace ns)) hrun
  refine ⟨hinv.1, ?_⟩
  intro m hm hso
  exact List.count_eq_one_of_mem hinv.1 (hmem rfl m hm hso)

/-- A machine of the fleet-default namespace owned by the machine set ms1. -/
def sharedSetMachine (nm : String) : K8sObject :=
  ⟨nm, "fleet-default", [⟨CAPIMachineSetKind, "ms1"⟩], []⟩

/-- An environment listing three machines that share the machine set ms1,
whose gets answer every request with an object of the requested name; the
machine set ms1 is owned by the machine deployment md1. -/
def sharedSetEnv : ToolsEnv :=
  { get := fun _kind ns n =>
      .ok ⟨n, ns, if n == "ms1" then [⟨CAPIMachineDeploymentKind, "md1"⟩] else [], []⟩,
    list := fun _ _ _ =>
      .ok [sharedSetMachine "m1", sharedSetMachine "m2", sharedSetMachine "m3"],
    logStream := fun _ => .ok "" }

/-- Every get of sharedSetEnv returns the requested name. -/
theorem sharedSetEnv_coherent : MachineSetNameCoherent sharedSetEnv := by
  intro ns n o h
  simp only [sharedSetEnv] at h
  injection h with h
  subst h
  rfl

/-- The state the traversal of sharedSetEnv reaches. -/
def sharedSetWalkState : WalkState :=
  { machineSetMap := ["ms1"],
    machineDeploymentMap := ["md1"],
    capiMachines := [sharedSetMachine "m1", sharedSetMachine "m2", sharedSetMachine "m3"],
    capiMachineSets := [⟨"ms1", "fleet-default", [⟨CAPIMachineDeploymentKind, "md1"⟩], []⟩],
    capiMachineDeployments := [⟨"md1", "fleet-default", [], []⟩],
    fetchLog := [msFetchKey "fleet-default" "ms1", mdFetchKey "fleet-default" "md1"] }

/-- C1 witness: three machines sharing the machine set ms1 produce a
duplicate-free fetch log in which ms1 is fetched exactly once. -/
theorem getCAPIMachineResources_dedup_witness :
    sharedSetWalkState.fetchLog.Nodup ∧
    sharedSetWalkState.fetchLog.count (msFetchKey "fleet-default" "ms1") = 1 := by
  have h := getCAPIMachineResources_dedup sharedSetEnv "" "c1"
    [sharedSetMachine "m1", sharedSetMachine "m2", sharedSetMachine "m3"]
    sharedSetWalkState sharedSetEnv_coherent (by decide) (by decide)
  exact ⟨h.1, h.2 (sharedSetMachine "m1") (by decide) (by decide)⟩

/-- C5: the failure policy of the traversal.  A notFound of the initial
machine list yields the empty result without error; any other error of the
list call is propagated; and when any machine iteration fails (a machine-set
or machine-deployment get erroring), the whole traversal aborts with exactly
that error, skipping the remaining machines. -/
theorem getCAPIMachineResources_failure_policy (env : ToolsEnv) (ns tc mn : String) :
    (env.list CAPIMachineResourceKind (defaultNamespace ns) (clusterSelector tc) =
        .error K8sError.notFound →
      getCAPIMachineResources env ⟨ns, tc, mn⟩ = .ok initialWalkState) ∧
    (∀ e, env.list CAPIMachineResourceKind (defaultNamespace ns) (clusterSelector tc) =
        .error e → e ≠ K8sError.notFound →
      getCAPIMachineResources env ⟨ns, tc, mn⟩ = .error e) ∧
    (∀ (l1 : List K8sObject) (m : K8sObject) (l2 : List K8sObject) (st : WalkState)
       (e : K8sError),
      env.list CAPIMachineResourceKind (defaultNamespace ns) (clusterSelector tc) =
        .ok (l1 ++ m :: l2) →
      processMachines env (defaultNamespace ns) mn initialWalkState l1 = .ok st →
      processMachine env (defaultNamespace ns) mn st m = .error e →
      getCAPIMachineResources env ⟨ns, tc, mn⟩ = .error e) := by
  refine ⟨?_, ?_, ?_⟩
  · intro hlist
    simp only [getCAPIMachineResources]
    rw [hlist]
    simp
  · intro e hlist hne
    simp only [getCAPIMachineResources]
    rw [hlist]
    simp [hne]
  · intro l1 m l2 st e hlist h1 h2
    simp only [getCAPIMachineResources]
    rw [hlist]
    exact processMachines_append_error env (defaultNamespace ns) mn l1 initialWalkState st m l2 e h1 h2

/-- An environment whose machine list reports notFound. -/
def machinesAbsentEnv : ToolsEnv :=
  { get := fun _ _ _ => .error .notFound,
    list := fun _ _ _ => .error .notFound,
    logStream := fun _ => .ok "" }

/-- An environment whose machine list fails with unavailable. -/
def listDownEnv : ToolsEnv :=
  { get := fun _ _ _ => .error .notFound,
    list := fun _ _ _ => .error .unavailable,
    logStream := fun _ => .ok "" }

/-- An environment listing one owned machine whose machine-set get fails with
unavailable. -/
def setDownEnv : ToolsEnv :=
  { get := fun _ _ _ => .error .unavailable,
    list := fun _ _ _ => .ok [sharedSetMachine "m1"],
    logStream := fun _ => .ok "" }

/-- C5 witness: the three failure-policy branches at concrete environments. -/
theorem getCAPIMachineResources_failure_policy_witness :
    getCAPIMachineResources machinesAbsentEnv ⟨"", "c1", ""⟩ = .ok initialWalkState ∧
    getCAPIMachineResources listDownEnv ⟨"", "c1", ""⟩ = .error K8sError.unavailable ∧
    getCAPIMachineResources setDownEnv ⟨"", "c1", ""⟩ = .error K8sError.unavailable := by
  refine ⟨?_, ?_, ?_⟩
  · exact (getCAPIMachineResources_failure_policy machinesAbsentEnv "" "c1" "").1 (by decide)
  · exact (getCAPIMachineResources_failure_policy listDownEnv "" "c1" "").2.1
      K8sError.unavailable (by decide) (by decide)
  · exact (getCAPIMachineResources_failure_policy setDownEnv "" "c1" "").2.2
      [] (sharedSetMachine "m1") [] initialWalkState K8sError.unavailable
      (by decide) (by decide) (by decide)

/-- C7: with a non-empty machine-name filter, the traversal reduces to the
loop over just the machines bearing that name — only that machine continues
downstream, so only its owner references drive machine-set and
machine-deployment fetches — while the initial list call (by namespace and
cluster-name selector only) is unaffected by the filter; and on success the
leaf output is exactly the listed machines bearing that name. -/
theorem getCAPIMachineResources_name_filter (env : ToolsEnv) (ns tc mn : String)
    (machines : List K8sObject) (hmn : mn ≠ "")
    (hcoh : MachineSetNameCoherent env)
    (hlist : env.list CAPIMachineResourceKind (defaultNamespace ns)
      (clusterSelector tc) = .ok machines) :
    getCAPIMachineResources env ⟨ns, tc, mn⟩ =
      processMachines env (defaultNamespace ns) mn initialWalkState
        (machines.filter (fun m => m.name == mn)) ∧
    (∀ st, getCAPIMachineResources env ⟨ns, tc, mn⟩ = .ok st →
      st.capiMachines = machines.filter (fun m => m.name == mn)) := by
  have hfirst : getCAPIMachineResources env ⟨ns, tc, mn⟩ =
      processMachines env (defaultNamespace ns) mn initialWalkState
        (machines.filter (fun m => m.name == mn)) := by
    simp only [getCAPIMachineResources]
    rw [hlist]
    exact processMachines_filter env (defaultNamespace ns) mn hmn machines initialWalkState
  refine ⟨hfirst, ?_⟩
  intro st hrun
  rw [hfirst] at hrun
  have := processMachines_all_pass env (defaultNamespace ns) mn hcoh
    (machines.filter (fun m => m.name == mn)) initialWalkState st
    (fun m hm => Or.inr (by simpa using (List.mem_filter.mp hm).2)) hrun
  simpa [initialWalkState] using this

/-- An environment listing the machines mA and mB, each owned by its own
machine set. -/
def twoMachinesEnv : ToolsEnv :=
  { get := fun _kind ns n => .ok ⟨n, ns, [], []⟩,
    list := fun _ _ _ =>
      .ok [⟨"mA", "fleet-default", [⟨CAPIMachineSetKind, "msA"⟩], []⟩,
           ⟨"mB", "fleet-default", [⟨CAPIMachineSetKind, "msB"⟩], []⟩],
    logStream := fun _ => .ok "" }

/-- Every get of twoMachinesEnv returns the requested name. -/
theorem twoMachinesEnv_coherent : MachineSetNameCoherent twoMachinesEnv := by
  intro ns n o h
  simp only [twoMachinesEnv] at h
  injection h with h
  subst h
  rfl

/-- The state the mA-filtered traversal of twoMachinesEnv reaches. -/
def filteredWalkState : WalkState :=
  { machineSetMap := ["msA"],
    machineDeploymentMap := [],
    capiMachines := [⟨"mA", "fleet-default", [⟨CAPIMachineSetKind, "msA"⟩], []⟩],
    capiMachineSets := [⟨"msA", "fleet-default", [], []⟩],
    capiMachineDeployments := [],
    fetchLog := [msFetchKey "fleet-default" "msA"] }

/-- C7 witness: the name-filter theorem applied to the two-machine
environment with the filter mA. -/
theorem getCAPIMachineResources_name_filter_witness :
    getCAPIMachineResources twoMachinesEnv ⟨"", "c1", "mA"⟩ =
      processMachines twoMachinesEnv (defaultNamespace "") "mA" initialWalkState
        (([⟨"mA", "fleet-default", [⟨CAPIMachineSetKind, "msA"⟩], []⟩,
           ⟨"mB", "fleet-default", [⟨CAPIMachineSetKind, "msB"⟩], []⟩] :
          List K8sObject).filter (fun m => m.name == "mA")) ∧
    filteredWalkState.capiMachines =
      ([⟨"mA", "fleet-default", [⟨CAPIMachineSetKind, "msA"⟩], []⟩,
        ⟨"mB", "fleet-default", [⟨CAPIMachineSetKind, "msB"⟩], []⟩] :
        List K8sObject).filter (fun m => m.name == "mA") := by
  have h := getCAPIMachineResources_name_filter twoMachinesEnv "" "c1" "mA"
    [⟨"mA", "fleet-default", [⟨CAPIMachineSetKind, "msA"⟩], []⟩,
     ⟨"mB", "fleet-default", [⟨CAPIMachineSetKind, "msB"⟩], []⟩]
    (by decide) twoMachinesEnv_coherent (by decide)
  exact ⟨h.1, h.2 filteredWalkState (by decide)⟩

/-- Over machines that all lack a MachineSet owner, an unfiltered machine
loop retains every machine and changes nothing else. -/
theorem processMachines_orphans (env : ToolsEnv) (ns : String) :
    ∀ (l : List K8sObject) (st : WalkState),
      (∀ m ∈ l, ∀ o ∈ m.ownerRefs, o.kind ≠ CAPIMachineSetKind) →
      processMachines env ns "" st l = .ok { st with capiMachines := st.capiMachines ++ l } := by
  intro l
  induction l with
  | nil =>
    intro st _
    simp only [processMachines]
    rw [List.append_nil]
  | cons m rest ih =>
    intro st horph
    simp only [processMachines,
      processMachine_orphan env ns "" st m (horph m (by simp)) (Or.inl rfl)]
    rw [ih _ (fun m0 hm0 => horph m0 (by simp [hm0]))]
    simp

/-- C9: a leaf machine with no owner reference of kind MachineSet is retained
in the leaf output, contributes no machine-set or machine-deployment entry,
and the traversal continues without error — stated per iteration for any
machine passing the filter, and for a whole traversal all of whose listed
machines are such orphans. -/
theorem getCAPIMachineResources_orphan_machines :
    (∀ (env : ToolsEnv) (ns mn : String) (st : WalkState) (m : K8sObject),
      (∀ o ∈ m.ownerRefs, o.kind ≠ CAPIMachineSetKind) → (mn = "" ∨ m.name = mn) →
      processMachine env ns mn st m =
        .ok { st with capiMachines := st.capiMachines ++ [m] }) ∧
    (∀ (env : ToolsEnv) (ns tc : String) (machines : List K8sObject),
      env.list CAPIMachineResourceKind (defaultNamespace ns)
        (clusterSelector tc) = .ok machines →
      (∀ m ∈ machines, ∀ o ∈ m.ownerRefs, o.kind ≠ CAPIMachineSetKind) →
      getCAPIMachineResources env ⟨ns, tc, ""⟩ =
        .ok { initialWalkState with capiMachines := machines }) := by
  constructor
  · intro env ns mn st m horph hpass
    exact processMachine_orphan env ns mn st m horph hpass
  · intro env ns tc machines hlist horph
    simp only [getCAPIMachineResources]
    rw [hlist]
    show processMachines env (defaultNamespace ns) "" initialWalkState machines =
      Except.ok { initialWalkState with capiMachines := machines }
    rw [processMachines_orphans env (defaultNamespace ns) machines initialWalkState horph]
    simp [initialWalkState]

/-- A machine owned only by a Node, with no MachineSet owner reference. -/
def nodeOwnedMachine : K8sObject := ⟨"mOrphan", "fleet-default", [⟨"Node", "n1"⟩], []⟩

/-- An environment listing just that orphan machine. -/
def orphanMachineEnv : ToolsEnv :=
  { get := fun _ _ _ => .error .notFound,
    list := fun _ _ _ => .ok [nodeOwnedMachine],
    logStream := fun _ => .ok "" }

/-- C9 witness: both parts of the orphan-machine theorem at the concrete
orphan machine. -/
theorem getCAPIMachineResources_orphan_machines_witness :
    processMachine orphanMachineEnv "fleet-default" "" initialWalkState nodeOwnedMachine =
      .ok { initialWalkState with capiMachines := initialWalkState.capiMachines ++ [nodeOwnedMachine] } ∧
    getCAPIMachineResources orphanMachineEnv ⟨"", "c1", ""⟩ =
      .ok { initialWalkState with capiMachines := [nodeOwnedMachine] } := by
  constructor
  · exact getCAPIMachineResources_orphan_machines.1 orphanMachineEnv "fleet-default" ""
      initialWalkState nodeOwnedMachine (by decide) (Or.inl rfl)
  · exact getCAPIMachineResources_orphan_machines.2 orphanMachineEnv "" "c1"
      [nodeOwnedMachine] (by decide) (by decide)

end RancherMcp
